import Mathlib

/-!
Shallow embedding of the go-capi client (src/client.go).

The transport (the injected `Doer`) is modelled by the list of responses it
returns, consumed in order: the loops under verification issue exactly one
request per iteration, so the n-th response in the list is the response to the
n-th request.  An exhausted list stands for a transport error.  A response
carries its status code, its raw body (used only in error messages) and the
result of JSON-decoding its body (`none` = decode error).  `time.Time` fields
are carried as their wire strings; request bodies (JSON marshalling) play no
role in the claims and are not modelled.  Go's `map[string]Links` and
`url.Values` are modelled as association lists; Go's `url.Values.Encode` sorts
keys, which only permutes query pairs, so query contents are stated by
membership, not order.
-/

namespace capi

/-- Go `strings.Replace(s, pat, rep, 1)` on rune lists: replace the first
occurrence of `pat` (leftmost match) by `rep`, leave everything else alone. -/
def replaceFirstL (pat rep : List Char) : List Char → List Char
  | [] => if pat.isPrefixOf ([] : List Char) then rep else []
  | c :: rest =>
    if pat.isPrefixOf (c :: rest) then rep ++ (c :: rest).drop pat.length
    else c :: replaceFirstL pat rep rest

/-- The link normalizer: `strings.Replace(s, "https", "http", 1)`
(src/client.go lines 30, 145, 207, 383, 465, 533, 661, 715). -/
def replaceHttps (s : String) : String :=
  ⟨replaceFirstL "https".data "http".data s.data⟩

/-- Substring test on rune lists (does `pat` occur anywhere in `s`?). -/
def containsSub : List Char → List Char → Bool
  | [], pat => pat.isPrefixOf ([] : List Char)
  | c :: rest, pat => pat.isPrefixOf (c :: rest) || containsSub rest pat

/-- Split a rune list at the first occurrence of `pat`, dropping `pat`. -/
def splitOnFirst (pat : List Char) : List Char → Option (List Char × List Char)
  | [] => if pat.isPrefixOf ([] : List Char) then some ([], []) else none
  | c :: rest =>
    if pat.isPrefixOf (c :: rest) then some ([], (c :: rest).drop pat.length)
    else
      match splitOnFirst pat rest with
      | some (a, b) => some (c :: a, b)
      | none => none

/-- Split a rune list on every occurrence of the separator character. -/
def splitAllOn (sep : Char) : List Char → List Char → List (List Char)
  | [], acc => [acc.reverse]
  | c :: rest, acc =>
    if c == sep then acc.reverse :: splitAllOn sep rest []
    else splitAllOn sep rest (c :: acc)

/-- Parse a raw query string into key/value pairs (`a=1&b=2`).  Percent
decoding is not modelled: the client never relies on it. -/
def parseQuery (cs : List Char) : List (String × String) :=
  if cs = [] then []
  else
    (splitAllOn '&' cs []).map fun kv =>
      match splitOnFirst "=".data kv with
      | none => (⟨kv⟩, "")
      | some (k, v) => (⟨k⟩, ⟨v⟩)

/-- The parts of Go's `url.URL` the client reads or writes. -/
structure URL where
  scheme : String
  host : String
  path : String
  query : List (String × String)
deriving DecidableEq

/-- Model of Go `url.Parse` for the absolute `scheme://host/path?query`
shapes the client handles.  Go's parser errors only on control characters and
bad escapes, which never arise here, so the model is total: a string with no
`://` is treated as scheme-less (everything in path/query), as Go does. -/
def urlParse (s : String) : URL :=
  match splitOnFirst "://".data s.data with
  | none =>
    match splitOnFirst "?".data s.data with
    | none => { scheme := "", host := "", path := s, query := [] }
    | some (p, q) => { scheme := "", host := "", path := ⟨p⟩, query := parseQuery q }
  | some (sch, rest) =>
    match splitOnFirst "/".data rest with
    | none =>
      match splitOnFirst "?".data rest with
      | none => { scheme := ⟨sch⟩, host := ⟨rest⟩, path := "", query := [] }
      | some (h, q) => { scheme := ⟨sch⟩, host := ⟨h⟩, path := "", query := parseQuery q }
    | some (h, pq) =>
      match splitOnFirst "?".data pq with
      | none => { scheme := ⟨sch⟩, host := ⟨h⟩, path := ⟨'/' :: pq⟩, query := [] }
      | some (p, q) =>
        { scheme := ⟨sch⟩, host := ⟨h⟩, path := ⟨'/' :: p⟩, query := parseQuery q }

/-- A relation link (src/client.go `Links`, lines 49-52). -/
structure Links where
  href : String
  method : String
deriving DecidableEq

/-- Health check data (src/client.go lines 40-47, inner struct). -/
structure HealthCheckData where
  timeout : Int
  invocationTimeout : Int
  endpoint : String
deriving DecidableEq

/-- Health check spec (src/client.go `HealthCheck`, lines 40-47). -/
structure HealthCheck where
  type : String
  data : HealthCheckData
deriving DecidableEq

/-- A process resource (src/client.go `Process`, lines 54-65).  `time.Time`
fields are carried as their wire strings; the Go `map[string]Links` is an
association list. -/
structure Process where
  type : String
  command : String
  instances : Int
  memoryInMB : Int
  diskInMB : Int
  healthCheck : HealthCheck
  guid : String
  createdAt : String
  updatedAt : String
  links : List (String × Links)
deriving DecidableEq

/-- A process-stats resource (src/client.go `ProcessStats`, lines 67-82);
named `ProcessStat` so the type and the `Client.ProcessStats` operation can
coexist.  CPU/memory usage are Go float64. -/
structure ProcessStat where
  type : String
  index : Int
  state : String
  usageTime : String
  usageCPU : Float
  usageMem : Float
  usageDisk : Int
  host : String
  uptime : Int
  memQuota : Int
  diskQuota : Int
  fdsQuota : Int

/-- A task resource (src/client.go `Task`, lines 84-96). -/
structure Task where
  sequenceID : Int
  name : String
  command : String
  diskInMB : Int
  memoryInMB : Int
  state : String
  dropletGuid : String
  guid : String
  createdAt : String
  updatedAt : String
  links : List (String × Links)
deriving DecidableEq

/-- The status/self-link envelope decoded by the task poller
(src/client.go lines 370-377). -/
structure TaskEnvelope where
  state : String
  selfHref : String
deriving DecidableEq

/-- The pagination envelope decoded by every list loop
(src/client.go lines 131-138, 193-200, 585-592). -/
structure PageEnvelope (α : Type) where
  nextHref : String
  resources : List α
deriving DecidableEq

/-- One transport response: status code, raw body (used in error messages),
and the JSON decode of the body (`none` = decode error). -/
structure Resp (α : Type) where
  status : Nat
  rawBody : String
  decoded : Option α
deriving DecidableEq

/-- One issued request: the address string the iteration was started from and
the URL actually placed on the request after path/query edits. -/
structure Req where
  addr : String
  url : URL
deriving DecidableEq

/-- The client configuration (src/client.go `Client`, lines 17-22; the `Doer`
is the response list supplied per operation). -/
structure Client where
  addr : String
  appGuid : String
  spaceGuid : String
deriving DecidableEq

/-- src/client.go `NewClient` (lines 28-38): the base address has HTTPS
replaced with HTTP so the HTTP_PROXY can do the work. -/
def NewClient (addr appGuid spaceGuid : String) : Client :=
  { addr := replaceHttps addr, appGuid := appGuid, spaceGuid := spaceGuid }

/-- `fmt.Errorf("unexpected status code %d: %s", code, body)`
(src/client.go lines 128, 190, 366, 455, 523, 582, 754). -/
def statusErr (code : Nat) (body : String) : String :=
  "unexpected status code " ++ toString code ++ ": " ++ body

/-- `fmt.Errorf("unexpected response %d: %s", code, body)`
(src/client.go lines 254, 308, 641, 694). -/
def statusErrV2 (code : Nat) (body : String) : String :=
  "unexpected response " ++ toString code ++ ": " ++ body

/-- The URL built by one pagination iteration of `Processes`/`ProcessStats`:
parse the current address and overwrite its path with the fixed endpoint path
(src/client.go lines 103-107, 165-169). -/
def mkPageURL (path addr : String) : URL :=
  { urlParse addr with path := path }

/-- The shared pagination loop of `Processes` (src/client.go lines 102-157)
and `ProcessStats` (lines 164-219), which are textually identical except for
the endpoint path and resource type.  Per iteration: parse the current
address, overwrite the path, issue a GET (consume one response), gate on
status 200, decode the envelope, normalize the next link, append the
resources, and follow a non-empty next link.  Returns the result and the
request log. -/
def paginate {α : Type} (path : String) :
    String → List (Resp (PageEnvelope α)) → List α →
    Except String (List α) × List Req
  | addr, [], _ => (Except.error "transport error", [⟨addr, mkPageURL path addr⟩])
  | addr, r :: rest, acc =>
    let req : Req := ⟨addr, mkPageURL path addr⟩
    if r.status ≠ 200 then (Except.error (statusErr r.status r.rawBody), [req])
    else
      match r.decoded with
      | none => (Except.error "decode error", [req])
      | some env =>
        -- line 145 / 207: next link normalized before the emptiness test
        let next := replaceHttps env.nextHref
        let acc2 := acc ++ env.resources
        if next ≠ "" then
          let rec2 := paginate path next rest acc2
          (rec2.1, req :: rec2.2)
        else (Except.ok acc2, [req])

/-- src/client.go `Processes` (lines 98-158). -/
def Client.Processes (c : Client) (appGuid : String)
    (resps : List (Resp (PageEnvelope Process))) :
    Except String (List Process) × List Req :=
  paginate ("/v3/apps/" ++ appGuid ++ "/processes") c.addr resps []

/-- src/client.go `ProcessStats` (lines 160-220). -/
def Client.ProcessStats (c : Client) (processGuid : String)
    (resps : List (Resp (PageEnvelope ProcessStat))) :
    Except String (List ProcessStat) × List Req :=
  paginate ("/v3/processes/" ++ processGuid ++ "/stats") c.addr resps []

/-- The URL built by one `ListTasks` iteration (src/client.go lines 549-561):
parse the current address, overwrite the path with the fixed tasks path, and
re-add every caller-supplied query parameter to the address's own query.
(Go's `Values.Encode` sorts keys; the model keeps append order, so query
contents are compared by membership.) -/
def mkTasksURL (appGuid : String) (query : List (String × String))
    (addr : String) : URL :=
  { urlParse addr with
    path := "/v3/apps/" ++ appGuid ++ "/tasks"
    query := (urlParse addr).query ++ query }

/-- The `ListTasks` pagination loop (src/client.go lines 548-607).  Unlike
`Processes`/`ProcessStats` it merges the caller query into every request and
does not normalize the next link (no `strings.Replace` between lines 594 and
601). -/
def listTasksLoop (appGuid : String) (query : List (String × String)) :
    String → List (Resp (PageEnvelope Task)) → List Task →
    Except String (List Task) × List Req
  | addr, [], _ =>
    (Except.error "transport error", [⟨addr, mkTasksURL appGuid query addr⟩])
  | addr, r :: rest, acc =>
    let req : Req := ⟨addr, mkTasksURL appGuid query addr⟩
    if r.status ≠ 200 then (Except.error (statusErr r.status r.rawBody), [req])
    else
      match r.decoded with
      | none => (Except.error "decode error", [req])
      | some env =>
        let acc2 := acc ++ env.resources
        if env.nextHref ≠ "" then
          let rec2 := listTasksLoop appGuid query env.nextHref rest acc2
          (rec2.1, req :: rec2.2)
        else (Except.ok acc2, [req])

/-- src/client.go `ListTasks` (lines 544-607). -/
def Client.ListTasks (c : Client) (appGuid : String)
    (query : List (String × String)) (resps : List (Resp (PageEnvelope Task))) :
    Except String (List Task) × List Req :=
  listTasksLoop appGuid query c.addr resps []

/-- The task polling loop of `CreateTask` (src/client.go lines 369-423),
acting on the envelope decoded from the current response and the list of
responses the transport will return to the polling GETs.  Per round: the self
link is normalized (line 383); on state `RUNNING` the poller sleeps, issues a
GET to the normalized self link (consuming the next response — note the poll
GET's status code is never inspected, lines 403-414) and re-evaluates; on
`FAILED` it returns the "task failed" error; any other state returns success.
Returns the result and the list of GET addresses issued. -/
def pollTask : TaskEnvelope → List (Resp TaskEnvelope) →
    Except String Unit × List String
  | e, resps =>
    let href := replaceHttps e.selfHref
    if e.state = "RUNNING" then
      match resps with
      | [] => (Except.error "transport error", [href])
      | r :: rest =>
        match r.decoded with
        | none => (Except.error "decode error", [href])
        | some e2 =>
          let rec2 := pollTask e2 rest
          (rec2.1, href :: rec2.2)
    else if e.state = "FAILED" then (Except.error "task failed", [])
    else (Except.ok (), [])

/-- src/client.go `CreateTask` (lines 326-423): POST to
`/v3/apps/{appGuid}/tasks` (the POST body carries the command), gate on
status 202, decode the status/self-link envelope from the POST response and
enter the polling loop.  Returns the result and the list of polling GET
addresses (the single POST is implicit). -/
def Client.CreateTask (c : Client) (command : String)
    (postResp : Resp TaskEnvelope) (getResps : List (Resp TaskEnvelope)) :
    Except String Unit × List String :=
  if postResp.status ≠ 202 then
    (Except.error (statusErr postResp.status postResp.rawBody), [])
  else
    match postResp.decoded with
    | none => (Except.error "decode error", [])
    | some e => pollTask e getResps

/-- The per-entry link rewrite applied by `GetTask` and `RunTask`
(src/client.go lines 464-471, 532-539): normalize the href and default an
absent method to GET. -/
def normalizeLink (l : Links) : Links :=
  { href := replaceHttps l.href
    method := if l.method = "" then "GET" else l.method }

/-- The link-map rewrite loop of `GetTask`/`RunTask`: every entry of the map
gets `normalizeLink` applied. -/
def normalizeLinks (ls : List (String × Links)) : List (String × Links) :=
  ls.map fun kl => (kl.1, normalizeLink kl.2)

/-- src/client.go `GetTask` (lines 425-474): GET `/v3/tasks/{guid}`, gate on
200, decode a `Task`, rewrite its link map.  Returns the result and the
request URL. -/
def Client.GetTask (c : Client) (guid : String) (resp : Resp Task) :
    Except String Task × URL :=
  let u : URL := { urlParse c.addr with path := "/v3/tasks/" ++ guid }
  let result : Except String Task :=
    if resp.status ≠ 200 then Except.error (statusErr resp.status resp.rawBody)
    else
      match resp.decoded with
      | none => Except.error "decode error"
      | some task => Except.ok { task with links := normalizeLinks task.links }
  (result, u)

/-- src/client.go `RunTask` (lines 476-542): an empty app guid argument falls
back to the client's default app guid; POST to `/v3/apps/{appGuid}/tasks`
(body carries command/name/droplet), gate on 202, decode a `Task`, rewrite
its link map.  Returns the result and the request URL. -/
def Client.RunTask (c : Client) (command name droplet appGuid : String)
    (resp : Resp Task) : Except String Task × URL :=
  let ag := if appGuid = "" then c.appGuid else appGuid
  let u : URL := { urlParse c.addr with path := "/v3/apps/" ++ ag ++ "/tasks" }
  let result : Except String Task :=
    if resp.status ≠ 202 then Except.error (statusErr resp.status resp.rawBody)
    else
      match resp.decoded with
      | none => Except.error "decode error"
      | some t => Except.ok { t with links := normalizeLinks t.links }
  (result, u)

/-- The `metadata.guid` element shape decoded by `GetAppGuid`
(src/client.go lines 258-262). -/
structure V2Resource where
  metadataGuid : String
deriving DecidableEq

/-- The `resources[].metadata.guid` shape decoded by `GetAppGuid`
(src/client.go lines 257-263). -/
structure V2AppsBody where
  resources : List V2Resource
deriving DecidableEq

/-- src/client.go `GetAppGuid` (lines 222-274): GET
`{addr}/v2/apps?q=name%3A{name}&q=space_guid%3A{space}`, gate on 200 (note
the `unexpected response` error wording), decode, and fail with
`empty results` when the resource list is empty, else return the first
resource's metadata guid.  Returns the result and the request URL. -/
def Client.GetAppGuid (c : Client) (appName : String) (resp : Resp V2AppsBody) :
    Except String String × URL :=
  let u := urlParse (c.addr ++ "/v2/apps?q=name%3A" ++ appName ++
    "&q=space_guid%3A" ++ c.spaceGuid)
  let result : Except String String :=
    if resp.status ≠ 200 then Except.error (statusErrV2 resp.status resp.rawBody)
    else
      match resp.decoded with
      | none => Except.error "decode error"
      | some body =>
        match body.resources with
        | [] => Except.error "empty results"
        | r :: _ => Except.ok r.metadataGuid
  (result, u)

/-- The `{guid}` shape decoded by `GetDropletGuid` (src/client.go 311-313). -/
structure GuidBody where
  guid : String
deriving DecidableEq

/-- src/client.go `GetDropletGuid` (lines 276-324): GET
`{addr}/v3/apps/{appGuid}/droplets/current`, gate on 200, decode, and fail
with `empty results` on an empty guid. -/
def Client.GetDropletGuid (c : Client) (appGuid : String) (resp : Resp GuidBody) :
    Except String String × URL :=
  let u := urlParse (c.addr ++ "/v3/apps/" ++ appGuid ++ "/droplets/current")
  let result : Except String String :=
    if resp.status ≠ 200 then Except.error (statusErrV2 resp.status resp.rawBody)
    else
      match resp.decoded with
      | none => Except.error "decode error"
      | some body =>
        if body.guid = "" then Except.error "empty results"
        else Except.ok body.guid
  (result, u)

/-- The `links.package.href` shape decoded by the first `GetPackageGuid`
request (src/client.go lines 644-650). -/
structure PackageLinkBody where
  packageHref : String
deriving DecidableEq

/-- The `guid` + `links.download.href` shape decoded by the second
`GetPackageGuid` request (src/client.go lines 697-704). -/
structure PackageBody where
  guid : String
  downloadHref : String
deriving DecidableEq

/-- src/client.go `GetPackageGuid` (lines 609-718): GET
`{addr}/v3/apps/{appGuid}/droplets/current`, gate on 200, fail with
`empty results` on an empty package href; otherwise normalize the package
href, GET it (second response), gate on 200, fail with `empty results` when
the guid or the download href is empty; otherwise return the guid and the
normalized download href. -/
def Client.GetPackageGuid (c : Client) (appGuid : String)
    (resp1 : Resp PackageLinkBody) (resp2 : Resp PackageBody) :
    Except String (String × String) :=
  if resp1.status ≠ 200 then
    Except.error (statusErrV2 resp1.status resp1.rawBody)
  else
    match resp1.decoded with
    | none => Except.error "decode error"
    | some result =>
      if result.packageHref = "" then Except.error "empty results"
      else
        if resp2.status ≠ 200 then
          Except.error (statusErrV2 resp2.status resp2.rawBody)
        else
          match resp2.decoded with
          | none => Except.error "decode error"
          | some g =>
            if g.guid = "" ∨ g.downloadHref = "" then
              Except.error "empty results"
            else Except.ok (g.guid, replaceHttps g.downloadHref)

/-- The `{var: map}` shape decoded by `GetEnvironmentVariables`
(src/client.go lines 757-759). -/
structure EnvVarsBody where
  var : List (String × String)
deriving DecidableEq

/-- src/client.go `GetEnvironmentVariables` (lines 720-765): an empty app
guid argument falls back to the client's default app guid; GET
`/v3/apps/{appGuid}/environment_variables`, gate on 200, decode, and return
the decoded variable map as is (no emptiness check, lines 757-764). -/
def Client.GetEnvironmentVariables (c : Client) (appGuid : String)
    (resp : Resp EnvVarsBody) : Except String (List (String × String)) × URL :=
  let ag := if appGuid = "" then c.appGuid else appGuid
  let u : URL :=
    { urlParse c.addr with path := "/v3/apps/" ++ ag ++ "/environment_variables" }
  let result : Except String (List (String × String)) :=
    if resp.status ≠ 200 then Except.error (statusErr resp.status resp.rawBody)
    else
      match resp.decoded with
      | none => Except.error "decode error"
      | some t => Except.ok t.var
  (result, u)

/-- A well-formed page sequence for the pagination claims: at least one page,
every page but the last carries a non-empty next link, the last page's next
link is empty. -/
def wellFormedPages {α : Type} : List (PageEnvelope α) → Bool
  | [] => false
  | [p] => p.nextHref == ""
  | p :: rest => (p.nextHref != "") && wellFormedPages rest

/-- A 200 response whose body decodes to the given page envelope. -/
def mkOkResp {α : Type} (p : PageEnvelope α) : Resp (PageEnvelope α) :=
  { status := 200, rawBody := "", decoded := some p }

/-- A 200 response whose body decodes to the given task envelope. -/
def mkOkTaskResp (e : TaskEnvelope) : Resp TaskEnvelope :=
  { status := 200, rawBody := "", decoded := some e }


/-- A list is a Boolean prefix of itself followed by anything. -/
theorem isPrefixOf_self_append : ∀ (l t : List Char), l.isPrefixOf (l ++ t) = true
  | [], _ => by simp [List.isPrefixOf]
  | c :: rest, t => by
    simp [List.isPrefixOf, isPrefixOf_self_append rest t]

/-- `containsSub` finds a block placed in the middle of a list. -/
theorem containsSub_append_middle :
    ∀ (pre mid post : List Char), containsSub (pre ++ (mid ++ post)) mid = true
  | [], mid, post => by
    cases h : mid ++ post with
    | nil =>
      have hm : mid = [] := by
        cases mid with
        | nil => rfl
        | cons c cs => simp at h
      simp [containsSub, hm, List.isPrefixOf]
    | cons c cs =>
      simp only [List.nil_append, h, containsSub]
      rw [← h, isPrefixOf_self_append]
      simp
  | c :: pre, mid, post => by
    simp [containsSub, containsSub_append_middle pre mid post]

/-- Replacing a non-empty pattern by a non-empty replacement never empties a
non-empty list. -/
theorem replaceFirstL_ne_nil (pat rep : List Char)
    (hrep : rep ≠ []) : ∀ {l : List Char}, l ≠ [] → replaceFirstL pat rep l ≠ []
  | [], hl => absurd rfl hl
  | c :: rest, _ => by
    by_cases h : pat.isPrefixOf (c :: rest)
    · simp [replaceFirstL, h, hrep]
    · simp [replaceFirstL, h]

/-- The normalizer maps non-empty strings to non-empty strings, so the
loop-continuation test on the normalized next link agrees with the test on
the raw next link. -/
theorem replaceHttps_ne_empty {s : String} (h : s ≠ "") : replaceHttps s ≠ "" := by
  have hd : s.data ≠ [] := by
    intro hnil
    apply h
    cases s with
    | mk data => simp at hnil; simp [hnil]
  have hne := replaceFirstL_ne_nil "https".data "http".data (by simp) hd
  simp only [replaceHttps]
  intro hcontr
  apply hne
  have hdata := congrArg String.data hcontr
  simpa using hdata

/-- The normalizer is the identity on the empty string. -/
theorem replaceHttps_empty : replaceHttps "" = "" := rfl

/-- A string that starts with the secure scheme has exactly that prefix
rewritten: the first five characters become `http` and the rest is kept. -/
theorem replaceHttps_of_prefix {s : String}
    (h : "https".data.isPrefixOf s.data = true) :
    replaceHttps s = ⟨"http".data ++ s.data.drop 5⟩ := by
  cases s with
  | mk data =>
    cases data with
    | nil => simp [List.isPrefixOf] at h
    | cons c rest =>
      simp only [replaceHttps, replaceFirstL, h, if_true]
      rfl

/-- A list in which the pattern does not occur at all is left unchanged. -/
theorem replaceFirstL_of_not_contains {pat rep : List Char} :
    ∀ {l : List Char}, containsSub l pat = false → replaceFirstL pat rep l = l
  | [], h => by
    simp only [containsSub] at h
    simp [replaceFirstL, h]
  | c :: rest, h => by
    simp only [containsSub, Bool.or_eq_false_iff] at h
    simp [replaceFirstL, h.1, replaceFirstL_of_not_contains h.2]

/-- A string in which the secure scheme does not occur at all is left
unchanged by the normalizer. -/
theorem replaceHttps_of_not_contains {s : String}
    (h : containsSub s.data "https".data = false) : replaceHttps s = s := by
  cases s with
  | mk data => exact congrArg String.mk (replaceFirstL_of_not_contains h)


/-- One pagination step of `Processes`/`ProcessStats` on a 200 page whose
(normalized) next link is non-empty: record the request and continue from the
normalized next link with the page's resources appended. -/
theorem paginate_cons_ok {α : Type} (path addr : String) (p : PageEnvelope α)
    (rest : List (Resp (PageEnvelope α))) (acc : List α)
    (h : replaceHttps p.nextHref ≠ "") :
    paginate path addr (mkOkResp p :: rest) acc =
      ((paginate path (replaceHttps p.nextHref) rest (acc ++ p.resources)).1,
       ⟨addr, mkPageURL path addr⟩ ::
         (paginate path (replaceHttps p.nextHref) rest (acc ++ p.resources)).2) := by
  simp [paginate, mkOkResp, h]

/-- The final pagination step of `Processes`/`ProcessStats` on a 200 page
with an empty next link: return the accumulated resources; any further
responses are never requested. -/
theorem paginate_last {α : Type} (path addr : String) (p : PageEnvelope α)
    (rest : List (Resp (PageEnvelope α))) (acc : List α) (h : p.nextHref = "") :
    paginate path addr (mkOkResp p :: rest) acc =
      (Except.ok (acc ++ p.resources), [⟨addr, mkPageURL path addr⟩]) := by
  simp [paginate, mkOkResp, h, replaceHttps_empty]

/-- Full characterization of the `Processes`/`ProcessStats` pagination loop on
a well-formed page sequence served with status 200: it succeeds with the
accumulator followed by the concatenation of all pages' resources in page
order, and the request log has one entry per page, the first built from the
starting address and each later one from the normalized next link of the page
before it. -/
theorem paginate_wf {α : Type} (path : String) :
    ∀ (pages : List (PageEnvelope α)), wellFormedPages pages = true →
      ∀ (addr : String) (acc : List α),
        paginate path addr (pages.map mkOkResp) acc =
          (Except.ok (acc ++ pages.flatMap PageEnvelope.resources),
           (addr :: pages.dropLast.map fun p => replaceHttps p.nextHref).map
             fun a => ⟨a, mkPageURL path a⟩)
  | [], h, _, _ => by simp [wellFormedPages] at h
  | [p], h, addr, acc => by
    have hp : p.nextHref = "" := by simpa [wellFormedPages] using h
    rw [List.map_cons, List.map_nil, paginate_last path addr p [] acc hp]
    simp
  | p :: q :: rest, h, addr, acc => by
    simp only [wellFormedPages, Bool.and_eq_true, bne_iff_ne, ne_eq] at h
    have hnext : replaceHttps p.nextHref ≠ "" := replaceHttps_ne_empty h.1
    have ih := paginate_wf path (q :: rest) h.2 (replaceHttps p.nextHref)
      (acc ++ p.resources)
    rw [List.map_cons, paginate_cons_ok path addr p _ acc hnext, ih]
    simp [List.dropLast_cons₂]

/-- One `ListTasks` pagination step on a 200 page whose next link is
non-empty: record the request and continue from the raw next link. -/
theorem listTasksLoop_cons_ok (appGuid : String) (query : List (String × String))
    (addr : String) (p : PageEnvelope Task)
    (rest : List (Resp (PageEnvelope Task))) (acc : List Task)
    (h : p.nextHref ≠ "") :
    listTasksLoop appGuid query addr (mkOkResp p :: rest) acc =
      ((listTasksLoop appGuid query p.nextHref rest (acc ++ p.resources)).1,
       ⟨addr, mkTasksURL appGuid query addr⟩ ::
         (listTasksLoop appGuid query p.nextHref rest (acc ++ p.resources)).2) := by
  simp [listTasksLoop, mkOkResp, h]

/-- The final `ListTasks` pagination step on a 200 page with an empty next
link. -/
theorem listTasksLoop_last (appGuid : String) (query : List (String × String))
    (addr : String) (p : PageEnvelope Task)
    (rest : List (Resp (PageEnvelope Task))) (acc : List Task)
    (h : p.nextHref = "") :
    listTasksLoop appGuid query addr (mkOkResp p :: rest) acc =
      (Except.ok (acc ++ p.resources),
       [⟨addr, mkTasksURL appGuid query addr⟩]) := by
  simp [listTasksLoop, mkOkResp, h]

/-- Full characterization of the `ListTasks` pagination loop on a well-formed
page sequence served with status 200: it succeeds with the concatenation of
all pages' resources in page order, and the request log has one entry per
page, the first built from the starting address and each later one built from
the raw (unnormalized) next link of the page before it, with the fixed tasks
path and the caller query re-merged every time. -/
theorem listTasksLoop_wf (appGuid : String) (query : List (String × String)) :
    ∀ (pages : List (PageEnvelope Task)), wellFormedPages pages = true →
      ∀ (addr : String) (acc : List Task),
        listTasksLoop appGuid query addr (pages.map mkOkResp) acc =
          (Except.ok (acc ++ pages.flatMap PageEnvelope.resources),
           (addr :: pages.dropLast.map PageEnvelope.nextHref).map
             fun a => ⟨a, mkTasksURL appGuid query a⟩)
  | [], h, _, _ => by simp [wellFormedPages] at h
  | [p], h, addr, acc => by
    have hp : p.nextHref = "" := by simpa [wellFormedPages] using h
    rw [List.map_cons, List.map_nil, listTasksLoop_last appGuid query addr p [] acc hp]
    simp
  | p :: q :: rest, h, addr, acc => by
    simp only [wellFormedPages, Bool.and_eq_true, bne_iff_ne, ne_eq] at h
    have ih := listTasksLoop_wf appGuid query (q :: rest) h.2 p.nextHref
      (acc ++ p.resources)
    rw [List.map_cons, listTasksLoop_cons_ok appGuid query addr p _ acc h.1, ih]
    simp [List.dropLast_cons₂]

/-- An envelope already in state `FAILED` terminates the poller at once, with
no GET issued. -/
theorem pollTask_failed_now (e : TaskEnvelope) (resps : List (Resp TaskEnvelope))
    (h : e.state = "FAILED") :
    pollTask e resps = (Except.error "task failed", []) := by
  unfold pollTask
  simp [h]

/-- An envelope in a state that is neither `RUNNING` nor `FAILED` terminates
the poller at once with success and no GET issued. -/
theorem pollTask_done (e : TaskEnvelope) (resps : List (Resp TaskEnvelope))
    (h1 : e.state ≠ "RUNNING") (h2 : e.state ≠ "FAILED") :
    pollTask e resps = (Except.ok (), []) := by
  unfold pollTask
  simp [h1, h2]

/-- One polling step on a `RUNNING` envelope: a GET is issued to the
normalized self link and the loop continues on the envelope decoded from the
next response. -/
theorem pollTask_step (e e2 : TaskEnvelope) (rest : List (Resp TaskEnvelope))
    (h : e.state = "RUNNING") :
    pollTask e (mkOkTaskResp e2 :: rest) =
      ((pollTask e2 rest).1, replaceHttps e.selfHref :: (pollTask e2 rest).2) := by
  conv_lhs => unfold pollTask
  simp [mkOkTaskResp, h]

/-- The polling loop on a trajectory that is reported `RUNNING` through the
POST envelope and `runs`, then reaches a state that is neither `RUNNING` nor
`FAILED`: it succeeds, and the GET addresses issued are exactly the
normalized self links of the POST envelope and of every `RUNNING` poll
envelope, in order. -/
theorem pollTask_runs_ok :
    ∀ (runs : List TaskEnvelope) (e0 fin : TaskEnvelope),
      e0.state = "RUNNING" → (∀ e ∈ runs, e.state = "RUNNING") →
      fin.state ≠ "RUNNING" → fin.state ≠ "FAILED" →
      pollTask e0 ((runs ++ [fin]).map mkOkTaskResp) =
        (Except.ok (), (e0 :: runs).map fun e => replaceHttps e.selfHref)
  | [], e0, fin, h0, _, hf1, hf2 => by
    rw [List.nil_append, List.map_cons, List.map_nil, pollTask_step e0 fin [] h0,
      pollTask_done fin [] hf1 hf2]
    simp
  | r :: rs, e0, fin, h0, hruns, hf1, hf2 => by
    have ih := pollTask_runs_ok rs r fin (hruns r (by simp))
      (fun e he => hruns e (by simp [he])) hf1 hf2
    rw [List.cons_append, List.map_cons, pollTask_step e0 r _ h0, ih]
    simp

/-- The polling loop on a trajectory that is reported `RUNNING` through the
POST envelope and `runs` and then `FAILED`: it returns the "task failed"
error and issues one GET per `RUNNING` report — whatever responses follow the
`FAILED` envelope are never consumed. -/
theorem pollTask_failed :
    ∀ (runs : List TaskEnvelope) (e0 failEnv : TaskEnvelope)
      (later : List (Resp TaskEnvelope)),
      e0.state = "RUNNING" → (∀ e ∈ runs, e.state = "RUNNING") →
      failEnv.state = "FAILED" →
      pollTask e0 (runs.map mkOkTaskResp ++ (mkOkTaskResp failEnv :: later)) =
        (Except.error "task failed",
         (e0 :: runs).map fun e => replaceHttps e.selfHref)
  | [], e0, failEnv, later, h0, _, hf => by
    rw [List.map_nil, List.nil_append, pollTask_step e0 failEnv later h0,
      pollTask_failed_now failEnv later hf]
    simp
  | r :: rs, e0, failEnv, later, h0, hruns, hf => by
    have ih := pollTask_failed rs r failEnv later (hruns r (by simp))
      (fun e he => hruns e (by simp [he])) hf
    rw [List.map_cons, List.cons_append, pollTask_step e0 r _ h0, ih]
    simp


/-- A concrete process used to exercise the theorems on concrete inputs. -/
def sampleProcess : Process :=
  { type := "web", command := "some-command", instances := 2, memoryInMB := 64
    diskInMB := 16, healthCheck := { type := "port", data := ⟨0, 0, ""⟩ }
    guid := "proc-1", createdAt := "", updatedAt := "", links := [] }

/-- A concrete task used to exercise the theorems on concrete inputs. -/
def sampleTask (n : String) : Task :=
  { sequenceID := 0, name := n, command := "", diskInMB := 0, memoryInMB := 0
    state := "", dropletGuid := "", guid := "", createdAt := "", updatedAt := ""
    links := [] }

/-- A concrete client used to exercise the theorems on concrete inputs. -/
def sampleClient : Client := NewClient "http://some-addr.com" "some-guid" "space-guid"

/-- A concrete two-page sequence of process pages (the second page is reached
through a secure-scheme next link, as in the repository's test fixtures). -/
def sampleProcessPages : List (PageEnvelope Process) :=
  [⟨"https://some-addr.com/v3/apps/some-guid/processes?page=2",
    [sampleProcess, { sampleProcess with guid := "proc-2" }]⟩,
   ⟨"", [{ sampleProcess with guid := "proc-3" }]⟩]

/-- Claim C1: for every well-formed sequence of pages in which each page but
the last carries a non-empty next link, each paginated list operation
(`Processes`, `ProcessStats`, `ListTasks`) returns the concatenation of all
pages' resources in page order, preserving within-page response order, and
issues exactly one GET request per page. -/
theorem claim_C1_pagination :
    (∀ (c : Client) (appGuid : String) (pages : List (PageEnvelope Process)),
      wellFormedPages pages = true →
      (c.Processes appGuid (pages.map mkOkResp)).1 =
        Except.ok (pages.flatMap PageEnvelope.resources) ∧
      (c.Processes appGuid (pages.map mkOkResp)).2.length = pages.length) ∧
    (∀ (c : Client) (processGuid : String) (pages : List (PageEnvelope ProcessStat)),
      wellFormedPages pages = true →
      (c.ProcessStats processGuid (pages.map mkOkResp)).1 =
        Except.ok (pages.flatMap PageEnvelope.resources) ∧
      (c.ProcessStats processGuid (pages.map mkOkResp)).2.length = pages.length) ∧
    (∀ (c : Client) (appGuid : String) (query : List (String × String))
       (pages : List (PageEnvelope Task)),
      wellFormedPages pages = true →
      (c.ListTasks appGuid query (pages.map mkOkResp)).1 =
        Except.ok (pages.flatMap PageEnvelope.resources) ∧
      (c.ListTasks appGuid query (pages.map mkOkResp)).2.length = pages.length) := by
  refine ⟨?_, ?_, ?_⟩
  · intro c appGuid pages hwf
    have hne : pages ≠ [] := by
      cases pages with
      | nil => simp [wellFormedPages] at hwf
      | cons a l => simp
    have hpos : 0 < pages.length := List.length_pos.mpr hne
    have hmain := paginate_wf ("/v3/apps/" ++ appGuid ++ "/processes") pages hwf c.addr []
    constructor
    · simp [Client.Processes, hmain]
    · simp [Client.Processes, hmain, List.length_dropLast]
      omega
  · intro c processGuid pages hwf
    have hne : pages ≠ [] := by
      cases pages with
      | nil => simp [wellFormedPages] at hwf
      | cons a l => simp
    have hpos : 0 < pages.length := List.length_pos.mpr hne
    have hmain := paginate_wf ("/v3/processes/" ++ processGuid ++ "/stats") pages hwf c.addr []
    constructor
    · simp [Client.ProcessStats, hmain]
    · simp [Client.ProcessStats, hmain, List.length_dropLast]
      omega
  · intro c appGuid query pages hwf
    have hne : pages ≠ [] := by
      cases pages with
      | nil => simp [wellFormedPages] at hwf
      | cons a l => simp
    have hpos : 0 < pages.length := List.length_pos.mpr hne
    have hmain := listTasksLoop_wf appGuid query pages hwf c.addr []
    constructor
    · simp [Client.ListTasks, hmain]
    · simp [Client.ListTasks, hmain, List.length_dropLast]
      omega

/-- Witness for C1: the concrete two-page run returns the three processes in
order and issues two requests. -/
theorem claim_C1_pagination_witness :
    wellFormedPages sampleProcessPages = true ∧
    (sampleClient.Processes "some-guid" (sampleProcessPages.map mkOkResp)).1 =
      Except.ok (sampleProcessPages.flatMap PageEnvelope.resources) ∧
    (sampleClient.Processes "some-guid" (sampleProcessPages.map mkOkResp)).2.length =
      sampleProcessPages.length :=
  ⟨by decide,
   (claim_C1_pagination.1 sampleClient "some-guid" sampleProcessPages (by decide)).1,
   (claim_C1_pagination.1 sampleClient "some-guid" sampleProcessPages (by decide)).2⟩


/-- Counterexample to claim C2: the normalization step is a first-occurrence
substring replace, so a string that does not start with the secure scheme but
contains it in the path is rewritten, although the claim says such strings
are left entirely unchanged. -/
theorem claim_C2_counterexample :
    "https".data.isPrefixOf "http://host/https-api".data = false ∧
    replaceHttps "http://host/https-api" ≠ "http://host/https-api" ∧
    replaceHttps "http://host/https-api" = "http://host/http-api" := by decide

/-- Claim C2 as amended: for every URL string starting with the secure scheme
the prefix is rewritten to the insecure scheme and the remainder is kept, and
every string in which the secure scheme does not occur at all is unchanged;
however, the rewrite is a first-occurrence substring replace, so a
scheme-looking substring elsewhere in the string (e.g. in the path) is also
rewritten (see the counterexample). -/
theorem claim_C2_scheme_normalization :
    (∀ s : String, "https".data.isPrefixOf s.data = true →
      replaceHttps s = ⟨"http".data ++ s.data.drop 5⟩) ∧
    (∀ s : String, containsSub s.data "https".data = false → replaceHttps s = s) :=
  ⟨fun _ h => replaceHttps_of_prefix h, fun _ h => replaceHttps_of_not_contains h⟩

/-- Witness for the amended C2 at concrete strings. -/
theorem claim_C2_scheme_normalization_witness :
    ("https".data.isPrefixOf "https://host/a".data = true ∧
      replaceHttps "https://host/a" = ⟨"http".data ++ "https://host/a".data.drop 5⟩) ∧
    (containsSub "gopher://host".data "https".data = false ∧
      replaceHttps "gopher://host" = "gopher://host") :=
  ⟨⟨by decide, claim_C2_scheme_normalization.1 "https://host/a" (by decide)⟩,
   ⟨by decide, claim_C2_scheme_normalization.2 "gopher://host" (by decide)⟩⟩


/-- Counterexample to claim C3: in a two-page `ListTasks` run with caller
query `names=x`, the second request (driven by the next link
`http://h/other?page=2`) does not use the next link verbatim — its path is
rewritten to the fixed tasks path (discarding `/other`) and the caller query
is re-merged into the link's own query. -/
theorem claim_C3_counterexample :
    ((NewClient "http://h" "a" "s").ListTasks "g" [("names", "x")]
        ([⟨"http://h/other?page=2", []⟩, ⟨"", []⟩].map mkOkResp)).2.map
      (fun r => (r.url.path, r.url.query)) =
      [("/v3/apps/g/tasks", [("names", "x")]),
       ("/v3/apps/g/tasks", [("page", "2"), ("names", "x")])] := by decide

/-- Claim C3 as amended: `ListTasks` merges the caller-supplied query
parameters into *every* request, not only the first; each subsequent request
is built from the server-supplied next link by overwriting its path with the
fixed tasks path and appending the caller parameters to the link's own query,
so the next link is followed (its address is the one used) but not verbatim. -/
theorem claim_C3_query_on_every_request :
    ∀ (c : Client) (appGuid : String) (query : List (String × String))
      (pages : List (PageEnvelope Task)), wellFormedPages pages = true →
      ((c.ListTasks appGuid query (pages.map mkOkResp)).2.map Req.addr =
        c.addr :: pages.dropLast.map PageEnvelope.nextHref) ∧
      ∀ r ∈ (c.ListTasks appGuid query (pages.map mkOkResp)).2,
        r.url.path = "/v3/apps/" ++ appGuid ++ "/tasks" ∧
        r.url.query = (urlParse r.addr).query ++ query := by
  intro c appGuid query pages hwf
  have hmain := listTasksLoop_wf appGuid query pages hwf c.addr []
  constructor
  · simp [Client.ListTasks, hmain, Function.comp_def]
  · intro r hr
    simp only [Client.ListTasks, hmain, List.mem_map] at hr
    obtain ⟨a, _, rfl⟩ := hr
    simp [mkTasksURL]

/-- Witness for the amended C3 on the concrete two-page run. -/
theorem claim_C3_query_on_every_request_witness :
    wellFormedPages ([⟨"http://h/other?page=2", []⟩, ⟨"", []⟩] :
        List (PageEnvelope Task)) = true ∧
    ((NewClient "http://h" "a" "s").ListTasks "g" [("names", "x")]
        (([⟨"http://h/other?page=2", []⟩, ⟨"", []⟩] :
          List (PageEnvelope Task)).map mkOkResp)).2.map Req.addr =
      (NewClient "http://h" "a" "s").addr ::
        ([⟨"http://h/other?page=2", []⟩, ⟨"", []⟩] :
          List (PageEnvelope Task)).dropLast.map PageEnvelope.nextHref :=
  ⟨by decide,
   (claim_C3_query_on_every_request (NewClient "http://h" "a" "s") "g"
      [("names", "x")] [⟨"http://h/other?page=2", []⟩, ⟨"", []⟩] (by decide)).1⟩


/-- Claim C4: after a 202 POST, a task whose polled envelopes report
`RUNNING` N times followed by `SUCCEEDED` (the POST envelope itself reporting
`RUNNING`, which is what starts the polling) causes exactly N+1 GET requests,
each to the normalized self link of the envelope that reported `RUNNING`, and
a nil error; an envelope reporting `FAILED` terminates with the "task failed"
error and no further requests (responses after it are never consumed); an
envelope in any state other than `RUNNING`/`FAILED` terminates immediately
with success. -/
theorem claim_C4_task_polling :
    (∀ (c : Client) (command : String) (e0 fin : TaskEnvelope)
       (runs : List TaskEnvelope),
      e0.state = "RUNNING" → (∀ e ∈ runs, e.state = "RUNNING") →
      fin.state = "SUCCEEDED" →
      c.CreateTask command ⟨202, "", some e0⟩ ((runs ++ [fin]).map mkOkTaskResp) =
        (Except.ok (), (e0 :: runs).map fun e => replaceHttps e.selfHref) ∧
      ((e0 :: runs).map fun e => replaceHttps e.selfHref).length = runs.length + 1) ∧
    (∀ (c : Client) (command : String) (e0 failEnv : TaskEnvelope)
       (runs : List TaskEnvelope) (later : List (Resp TaskEnvelope)),
      e0.state = "RUNNING" → (∀ e ∈ runs, e.state = "RUNNING") →
      failEnv.state = "FAILED" →
      c.CreateTask command ⟨202, "", some e0⟩
          (runs.map mkOkTaskResp ++ (mkOkTaskResp failEnv :: later)) =
        (Except.error "task failed",
         (e0 :: runs).map fun e => replaceHttps e.selfHref)) ∧
    (∀ (c : Client) (command : String) (e0 : TaskEnvelope)
       (gets : List (Resp TaskEnvelope)),
      e0.state = "FAILED" →
      c.CreateTask command ⟨202, "", some e0⟩ gets =
        (Except.error "task failed", [])) ∧
    (∀ (c : Client) (command : String) (e0 : TaskEnvelope)
       (gets : List (Resp TaskEnvelope)),
      e0.state ≠ "RUNNING" → e0.state ≠ "FAILED" →
      c.CreateTask command ⟨202, "", some e0⟩ gets = (Except.ok (), [])) := by
  refine ⟨?_, ?_, ?_, ?_⟩
  · intro c command e0 fin runs h0 hruns hfin
    have hf1 : fin.state ≠ "RUNNING" := by simp [hfin]
    have hf2 : fin.state ≠ "FAILED" := by simp [hfin]
    constructor
    · have hpoll := pollTask_runs_ok runs e0 fin h0 hruns hf1 hf2
      simpa [Client.CreateTask] using hpoll
    · simp
  · intro c command e0 failEnv runs later h0 hruns hf
    have hpoll := pollTask_failed runs e0 failEnv later h0 hruns hf
    simpa [Client.CreateTask] using hpoll
  · intro c command e0 gets h0
    have hpoll := pollTask_failed_now e0 gets h0
    simpa [Client.CreateTask] using hpoll
  · intro c command e0 gets h1 h2
    have hpoll := pollTask_done e0 gets h1 h2
    simpa [Client.CreateTask] using hpoll

/-- Witness for C4 with N = 1: `RUNNING` from the POST, one `RUNNING` poll,
then `SUCCEEDED` — two GETs to the normalized self links and a nil error. -/
theorem claim_C4_task_polling_witness :
    (TaskEnvelope.state ⟨"RUNNING", "https://h/t1"⟩ = "RUNNING" ∧
      (∀ e ∈ [(⟨"RUNNING", "https://h/t2"⟩ : TaskEnvelope)], e.state = "RUNNING") ∧
      TaskEnvelope.state ⟨"SUCCEEDED", "https://h/t2"⟩ = "SUCCEEDED") ∧
    sampleClient.CreateTask "some-command" ⟨202, "", some ⟨"RUNNING", "https://h/t1"⟩⟩
        (([(⟨"RUNNING", "https://h/t2"⟩ : TaskEnvelope)] ++
          ([⟨"SUCCEEDED", "https://h/t2"⟩] : List TaskEnvelope)).map mkOkTaskResp) =
      (Except.ok (),
       ([⟨"RUNNING", "https://h/t1"⟩, ⟨"RUNNING", "https://h/t2"⟩] :
         List TaskEnvelope).map fun e => replaceHttps e.selfHref) :=
  ⟨⟨by decide, by decide, by decide⟩,
   (claim_C4_task_polling.1 sampleClient "some-command" ⟨"RUNNING", "https://h/t1"⟩
      ⟨"SUCCEEDED", "https://h/t2"⟩ [⟨"RUNNING", "https://h/t2"⟩]
      (by decide) (by decide) (by decide)).1⟩


/-- Counterexample to claim C5: in a two-page `ListTasks` run whose first
page carries the secure-scheme next link `https://h/t`, the second request is
issued from that link unnormalized — its scheme is still the secure one —
although the claim says every paginated list operation (ListTasks included)
normalizes the next link before following it. -/
theorem claim_C5_counterexample :
    ((NewClient "http://h" "a" "s").ListTasks "g" []
        ([⟨"https://h/t", []⟩, ⟨"", []⟩].map mkOkResp)).2.map
      (fun r => (r.addr, r.url.scheme)) =
      [("http://h", "http"), ("https://h/t", "https")] := by decide

/-- Claim C5 as amended: `Processes` and `ProcessStats` normalize each
next-page link before following it (each request after the first starts from
the normalized next link of the previous page), but `ListTasks` follows each
next-page link exactly as served, with no scheme normalization. -/
theorem claim_C5_next_link_normalization :
    (∀ (c : Client) (appGuid : String) (pages : List (PageEnvelope Process)),
      wellFormedPages pages = true →
      (c.Processes appGuid (pages.map mkOkResp)).2.map Req.addr =
        c.addr :: pages.dropLast.map fun p => replaceHttps p.nextHref) ∧
    (∀ (c : Client) (processGuid : String) (pages : List (PageEnvelope ProcessStat)),
      wellFormedPages pages = true →
      (c.ProcessStats processGuid (pages.map mkOkResp)).2.map Req.addr =
        c.addr :: pages.dropLast.map fun p => replaceHttps p.nextHref) ∧
    (∀ (c : Client) (appGuid : String) (query : List (String × String))
       (pages : List (PageEnvelope Task)),
      wellFormedPages pages = true →
      (c.ListTasks appGuid query (pages.map mkOkResp)).2.map Req.addr =
        c.addr :: pages.dropLast.map PageEnvelope.nextHref) := by
  refine ⟨?_, ?_, ?_⟩
  · intro c appGuid pages hwf
    have hmain := paginate_wf ("/v3/apps/" ++ appGuid ++ "/processes") pages hwf c.addr []
    simp [Client.Processes, hmain, Function.comp_def]
  · intro c processGuid pages hwf
    have hmain := paginate_wf ("/v3/processes/" ++ processGuid ++ "/stats") pages hwf c.addr []
    simp [Client.ProcessStats, hmain, Function.comp_def]
  · intro c appGuid query pages hwf
    have hmain := listTasksLoop_wf appGuid query pages hwf c.addr []
    simp [Client.ListTasks, hmain, Function.comp_def]

/-- Witness for the amended C5: a concrete two-page `Processes` run follows
the normalized next link. -/
theorem claim_C5_next_link_normalization_witness :
    wellFormedPages sampleProcessPages = true ∧
    (sampleClient.Processes "some-guid" (sampleProcessPages.map mkOkResp)).2.map
        Req.addr =
      sampleClient.addr ::
        sampleProcessPages.dropLast.map fun p => replaceHttps p.nextHref :=
  ⟨by decide,
   claim_C5_next_link_normalization.1 sampleClient "some-guid" sampleProcessPages
     (by decide)⟩

/-- A task whose link map carries a secure-scheme href and no method, used to
exhibit that `ListTasks` does not rewrite link maps. -/
def rawLinkTask : Task :=
  { sampleTask "task-1" with links := [("self", ⟨"https://h/x", ""⟩)] }

/-- Counterexample to claim C6: a task returned by `ListTasks` keeps its link
map exactly as decoded — the href still carries the secure scheme and the
omitted method is not defaulted to GET — although the claim says every Task
returned by ListTasks has normalized link URLs and defaulted methods. -/
theorem claim_C6_counterexample :
    ((NewClient "http://h" "a" "s").ListTasks "g" []
        [mkOkResp ⟨"", [rawLinkTask]⟩]).1 = Except.ok [rawLinkTask] ∧
    rawLinkTask.links = [("self", ⟨"https://h/x", ""⟩)] := ⟨rfl, rfl⟩

/-- Claim C6 as amended: `GetTask` and `RunTask` rewrite every entry of the
returned task's link map — the href is normalized and an omitted method is
defaulted to GET while an explicit method is retained — but `ListTasks`
returns the decoded tasks verbatim, with no link rewriting. -/
theorem claim_C6_task_link_rewrite :
    (∀ (c : Client) (guid : String) (t : Task),
      (c.GetTask guid ⟨200, "", some t⟩).1 =
        Except.ok { t with links := normalizeLinks t.links }) ∧
    (∀ (c : Client) (command name droplet appGuid : String) (t : Task),
      (c.RunTask command name droplet appGuid ⟨202, "", some t⟩).1 =
        Except.ok { t with links := normalizeLinks t.links }) ∧
    (∀ l : Links,
      (normalizeLink l).href = replaceHttps l.href ∧
      (normalizeLink l).method ≠ "" ∧
      (l.method = "" → (normalizeLink l).method = "GET") ∧
      (l.method ≠ "" → (normalizeLink l).method = l.method)) ∧
    (∀ (c : Client) (appGuid : String) (query : List (String × String))
       (pages : List (PageEnvelope Task)),
      wellFormedPages pages = true →
      (c.ListTasks appGuid query (pages.map mkOkResp)).1 =
        Except.ok (pages.flatMap PageEnvelope.resources)) := by
  refine ⟨?_, ?_, ?_, ?_⟩
  · intro c guid t
    simp [Client.GetTask]
  · intro c command name droplet appGuid t
    simp [Client.RunTask]
  · intro l
    refine ⟨rfl, ?_, ?_, ?_⟩
    · by_cases h : l.method = "" <;> simp [normalizeLink, h]
    · intro h; simp [normalizeLink, h]
    · intro h; simp [normalizeLink, h]
  · intro c appGuid query pages hwf
    have hmain := listTasksLoop_wf appGuid query pages hwf c.addr []
    simp [Client.ListTasks, hmain]

/-- Witness for the amended C6 at a concrete task: `GetTask` normalizes the
href and defaults the method, and an entry with an explicit method keeps it. -/
theorem claim_C6_task_link_rewrite_witness :
    (sampleClient.GetTask "task-guid" ⟨200, "", some rawLinkTask⟩).1 =
      Except.ok { rawLinkTask with links := normalizeLinks rawLinkTask.links } ∧
    (Links.method ⟨"https://h/x", "POST"⟩ ≠ "" ∧
      (normalizeLink ⟨"https://h/x", "POST"⟩).method =
        Links.method ⟨"https://h/x", "POST"⟩) :=
  ⟨claim_C6_task_link_rewrite.1 sampleClient "task-guid" rawLinkTask,
   by decide,
   (claim_C6_task_link_rewrite.2.2.1 ⟨"https://h/x", "POST"⟩).2.2.2 (by decide)⟩


/-- Counterexample to claim C7: `GetEnvironmentVariables` performs no
emptiness check — a 200 response whose decoded body has an absent/empty
variable map yields a zero-value success (`ok` with the empty map), not an
"empty results" error. -/
theorem claim_C7_counterexample :
    ((NewClient "http://h" "a" "s").GetEnvironmentVariables "g"
        ⟨200, "", some ⟨[]⟩⟩).1 = Except.ok [] := rfl

/-- Claim C7 as amended: the three guid-resolution operations (`GetAppGuid`,
`GetDropletGuid`, `GetPackageGuid`) return the "empty results" error when a
200 response decodes to an absent/empty required field (empty resource list,
empty guid, empty package href, empty guid or download href), never a
zero-value success; `GetEnvironmentVariables`, however, returns the decoded
variable map as is, with no emptiness check. -/
theorem claim_C7_empty_results :
    (∀ (c : Client) (appName body : String),
      (c.GetAppGuid appName ⟨200, body, some ⟨[]⟩⟩).1 =
        Except.error "empty results") ∧
    (∀ (c : Client) (appGuid body : String),
      (c.GetDropletGuid appGuid ⟨200, body, some ⟨""⟩⟩).1 =
        Except.error "empty results") ∧
    (∀ (c : Client) (appGuid body : String) (resp2 : Resp PackageBody),
      c.GetPackageGuid appGuid ⟨200, body, some ⟨""⟩⟩ resp2 =
        Except.error "empty results") ∧
    (∀ (c : Client) (appGuid body : String) (p : PackageLinkBody)
       (g : PackageBody),
      p.packageHref ≠ "" → g.guid = "" ∨ g.downloadHref = "" →
      c.GetPackageGuid appGuid ⟨200, body, some p⟩ ⟨200, body, some g⟩ =
        Except.error "empty results") ∧
    (∀ (c : Client) (appGuid : String) (vars : List (String × String)),
      (c.GetEnvironmentVariables appGuid ⟨200, "", some ⟨vars⟩⟩).1 =
        Except.ok vars) := by
  refine ⟨?_, ?_, ?_, ?_, ?_⟩
  · intro c appName body
    simp [Client.GetAppGuid]
  · intro c appGuid body
    simp [Client.GetDropletGuid]
  · intro c appGuid body resp2
    simp [Client.GetPackageGuid]
  · intro c appGuid body p g hp hg
    simp [Client.GetPackageGuid, hp, hg]
  · intro c appGuid vars
    simp [Client.GetEnvironmentVariables]

/-- Witness for the amended C7 at a concrete second-stage package response
with an empty download href. -/
theorem claim_C7_empty_results_witness :
    (PackageLinkBody.packageHref ⟨"https://h/pkg"⟩ ≠ "" ∧
      (PackageBody.guid ⟨"pkg-guid", ""⟩ = "" ∨
        PackageBody.downloadHref ⟨"pkg-guid", ""⟩ = "")) ∧
    sampleClient.GetPackageGuid "some-guid" ⟨200, "", some ⟨"https://h/pkg"⟩⟩
        ⟨200, "", some ⟨"pkg-guid", ""⟩⟩ = Except.error "empty results" :=
  ⟨⟨by decide, by decide⟩,
   claim_C7_empty_results.2.2.2.1 sampleClient "some-guid" "" ⟨"https://h/pkg"⟩
     ⟨"pkg-guid", ""⟩ (by decide) (by decide)⟩


/-- Counterexample to claim C8: a polling GET inside `CreateTask` whose
response carries status 500 (a read, so the required code would be 200) is
accepted without any error — the poller never inspects the status code of a
poll response — so the operation returns success, contradicting the claim
that every response with an unexpected status yields a non-nil error. -/
theorem claim_C8_counterexample :
    (NewClient "http://h" "a" "s").CreateTask "cmd"
        ⟨202, "", some ⟨"RUNNING", "http://h/t"⟩⟩
        [⟨500, "boom", some ⟨"SUCCEEDED", "http://h/t"⟩⟩] =
      (Except.ok (), ["http://h/t"]) := rfl

/-- Claim C8 as amended: every gated request — each page request of
`Processes`/`ProcessStats`/`ListTasks`, the `GetTask` GET, the initial POST
of `CreateTask`/`RunTask`, and both `GetAppGuid`/`GetDropletGuid`/
`GetPackageGuid`/`GetEnvironmentVariables` GETs — turns a response whose
status differs from the endpoint's required code (200 for reads and lists,
202 for task creation) into a non-nil error embedding the observed status
code and the response body, with no retry (exactly the one request is
issued); the polling GETs inside `CreateTask`, however, never inspect the
status code (see the counterexample). -/
theorem claim_C8_status_gate :
    (∀ (c : Client) (appGuid : String) (r : Resp (PageEnvelope Process))
       (rest : List (Resp (PageEnvelope Process))), r.status ≠ 200 →
      c.Processes appGuid (r :: rest) =
        (Except.error (statusErr r.status r.rawBody),
         [⟨c.addr, mkPageURL ("/v3/apps/" ++ appGuid ++ "/processes") c.addr⟩])) ∧
    (∀ (c : Client) (processGuid : String) (r : Resp (PageEnvelope ProcessStat))
       (rest : List (Resp (PageEnvelope ProcessStat))), r.status ≠ 200 →
      c.ProcessStats processGuid (r :: rest) =
        (Except.error (statusErr r.status r.rawBody),
         [⟨c.addr, mkPageURL ("/v3/processes/" ++ processGuid ++ "/stats") c.addr⟩])) ∧
    (∀ (c : Client) (appGuid : String) (query : List (String × String))
       (r : Resp (PageEnvelope Task)) (rest : List (Resp (PageEnvelope Task))),
      r.status ≠ 200 →
      c.ListTasks appGuid query (r :: rest) =
        (Except.error (statusErr r.status r.rawBody),
         [⟨c.addr, mkTasksURL appGuid query c.addr⟩])) ∧
    (∀ (c : Client) (guid : String) (r : Resp Task), r.status ≠ 200 →
      (c.GetTask guid r).1 = Except.error (statusErr r.status r.rawBody)) ∧
    (∀ (c : Client) (command : String) (r : Resp TaskEnvelope)
       (gets : List (Resp TaskEnvelope)), r.status ≠ 202 →
      c.CreateTask command r gets =
        (Except.error (statusErr r.status r.rawBody), [])) ∧
    (∀ (c : Client) (command name droplet appGuid : String) (r : Resp Task),
      r.status ≠ 202 →
      (c.RunTask command name droplet appGuid r).1 =
        Except.error (statusErr r.status r.rawBody)) ∧
    (∀ (c : Client) (appName : String) (r : Resp V2AppsBody), r.status ≠ 200 →
      (c.GetAppGuid appName r).1 =
        Except.error (statusErrV2 r.status r.rawBody)) ∧
    (∀ (c : Client) (appGuid : String) (r : Resp GuidBody), r.status ≠ 200 →
      (c.GetDropletGuid appGuid r).1 =
        Except.error (statusErrV2 r.status r.rawBody)) ∧
    (∀ (c : Client) (appGuid : String) (r1 : Resp PackageLinkBody)
       (r2 : Resp PackageBody), r1.status ≠ 200 →
      c.GetPackageGuid appGuid r1 r2 =
        Except.error (statusErrV2 r1.status r1.rawBody)) ∧
    (∀ (c : Client) (appGuid : String) (r : Resp EnvVarsBody), r.status ≠ 200 →
      (c.GetEnvironmentVariables appGuid r).1 =
        Except.error (statusErr r.status r.rawBody)) ∧
    (∀ (code : Nat) (body : String),
      containsSub (statusErr code body).data (toString code).data = true ∧
      containsSub (statusErr code body).data body.data = true ∧
      containsSub (statusErrV2 code body).data (toString code).data = true ∧
      containsSub (statusErrV2 code body).data body.data = true) := by
  refine ⟨?_, ?_, ?_, ?_, ?_, ?_, ?_, ?_, ?_, ?_, ?_⟩
  · intro c appGuid r rest h
    simp [Client.Processes, paginate, h]
  · intro c processGuid r rest h
    simp [Client.ProcessStats, paginate, h]
  · intro c appGuid query r rest h
    simp [Client.ListTasks, listTasksLoop, h]
  · intro c guid r h
    simp [Client.GetTask, h]
  · intro c command r gets h
    simp [Client.CreateTask, h]
  · intro c command name droplet appGuid r h
    simp [Client.RunTask, h]
  · intro c appName r h
    simp [Client.GetAppGuid, h]
  · intro c appGuid r h
    simp [Client.GetDropletGuid, h]
  · intro c appGuid r1 r2 h
    simp [Client.GetPackageGuid, h]
  · intro c appGuid r h
    simp [Client.GetEnvironmentVariables, h]
  · intro code body
    refine ⟨?_, ?_, ?_, ?_⟩
    · have h := containsSub_append_middle "unexpected status code ".data
        (toString code).data (": " ++ body).data
      simpa [statusErr] using h
    · have h := containsSub_append_middle
        ("unexpected status code " ++ toString code ++ ": ").data body.data []
      simpa [statusErr] using h
    · have h := containsSub_append_middle "unexpected response ".data
        (toString code).data (": " ++ body).data
      simpa [statusErrV2] using h
    · have h := containsSub_append_middle
        ("unexpected response " ++ toString code ++ ": ").data body.data []
      simpa [statusErrV2] using h

/-- Witness for the amended C8: a concrete 500 page response makes
`Processes` fail with the status-and-body-bearing error after exactly one
request. -/
theorem claim_C8_status_gate_witness :
    Resp.status (⟨500, "boom", none⟩ : Resp (PageEnvelope Process)) ≠ 200 ∧
    sampleClient.Processes "some-guid" [⟨500, "boom", none⟩] =
      (Except.error (statusErr 500 "boom"),
       [⟨sampleClient.addr,
         mkPageURL ("/v3/apps/" ++ "some-guid" ++ "/processes")
           sampleClient.addr⟩]) :=
  ⟨by decide,
   claim_C8_status_gate.1 sampleClient "some-guid" ⟨500, "boom", none⟩ []
     (by decide)⟩

/-- Claim C10: `RunTask` and `GetEnvironmentVariables` called with an empty
app guid argument substitute the client's default app guid in the endpoint
path, while a non-empty argument overrides the default. -/
theorem claim_C10_default_app_guid :
    (∀ (c : Client) (command name droplet : String) (resp : Resp Task),
      (c.RunTask command name droplet "" resp).2.path =
        "/v3/apps/" ++ c.appGuid ++ "/tasks") ∧
    (∀ (c : Client) (command name droplet appGuid : String) (resp : Resp Task),
      appGuid ≠ "" →
      (c.RunTask command name droplet appGuid resp).2.path =
        "/v3/apps/" ++ appGuid ++ "/tasks") ∧
    (∀ (c : Client) (resp : Resp EnvVarsBody),
      (c.GetEnvironmentVariables "" resp).2.path =
        "/v3/apps/" ++ c.appGuid ++ "/environment_variables") ∧
    (∀ (c : Client) (appGuid : String) (resp : Resp EnvVarsBody),
      appGuid ≠ "" →
      (c.GetEnvironmentVariables appGuid resp).2.path =
        "/v3/apps/" ++ appGuid ++ "/environment_variables") := by
  refine ⟨?_, ?_, ?_, ?_⟩
  · intro c command name droplet resp
    simp [Client.RunTask]
  · intro c command name droplet appGuid resp h
    simp [Client.RunTask, h]
  · intro c resp
    simp [Client.GetEnvironmentVariables]
  · intro c appGuid resp h
    simp [Client.GetEnvironmentVariables, h]

/-- Witness for C10: with the sample client, an explicit app guid overrides
the default in the environment-variables endpoint path. -/
theorem claim_C10_default_app_guid_witness :
    ("other-guid" : String) ≠ "" ∧
    (sampleClient.GetEnvironmentVariables "other-guid" ⟨200, "", some ⟨[]⟩⟩).2.path =
      "/v3/apps/" ++ "other-guid" ++ "/environment_variables" :=
  ⟨by decide,
   claim_C10_default_app_guid.2.2.2 sampleClient "other-guid" ⟨200, "", some ⟨[]⟩⟩
     (by decide)⟩

end capi
